import Mathlib

/-!
Verification of the Treasury aggregation engine
(`app/services/treasury_service.py`).

The Python service is shallowly embedded: records are association lists
from field names to optional strings (JSON null becomes `none`), Python
floats become exact rationals, Python `float(...)` becomes the partial
parser `pyFloat`, Python `round(x, n)` becomes `pyRound` (round half to
even on the exact rational), and each aggregation strategy becomes a fold
over the flat stream of records together with an explicit fuel-indexed
pagination driver.  Out of model scope: IEEE-754 rounding error of the
individual float operations, and the `inf`/`nan`/underscore forms of
Python's float grammar (never produced by the provider's numeric fields).
-/

namespace Treasury

/-- A raw upstream record: an unordered mapping from field name to a
string or JSON null, embedded as an association list.  A key may be
absent (not in the list) or present with a null value (`none`). -/
abbrev RawRecord := List (String × Option String)

/-- First-match association lookup: `none` when the key is absent,
`some v` when the key is present with value `v` (possibly null). -/
def rlookup : RawRecord → String → Option (Option String)
  | [], _ => none
  | (k, v) :: rest, key => if k = key then some v else rlookup rest key

/-- Python `item.get(key)`: `None` both when the key is absent and when
it is present with a null value. -/
def rget (r : RawRecord) (k : String) : Option String :=
  match rlookup r k with
  | some v => v
  | none => none

/-- Python `item.get(key, default)`: the default only replaces an absent
key; a present null value is returned as is. -/
def rgetD (r : RawRecord) (k : String) (d : String) : Option String :=
  match rlookup r k with
  | some v => v
  | none => some d

/-- Python `s.replace(",", "")`: drop every comma character. -/
def stripCommas (s : String) : String :=
  ⟨s.data.filter (fun c => c ≠ ',')⟩

/-- Numeric value of a list of ASCII digits. -/
def digitsVal (ds : List Char) : ℕ :=
  ds.foldl (fun a c => 10 * a + (c.toNat - 48)) 0

/-- Exponent part of the Python float grammar: optional sign then a
nonempty digit run consuming the rest of the input. -/
def parseExp (mant : ℚ) (t : List Char) : Option ℚ :=
  let p : ℤ × List Char :=
    match t with
    | '+' :: r => (1, r)
    | '-' :: r => (-1, r)
    | r => (1, r)
  let eds := p.2.takeWhile Char.isDigit
  let erest := p.2.dropWhile Char.isDigit
  if eds.isEmpty || !erest.isEmpty then none
  else some (mant * (10 : ℚ) ^ (p.1 * (digitsVal eds : ℤ)))

/-- Python `float(s)` on the decimal core of its grammar: optional
surrounding whitespace, optional sign, digits with an optional fraction
part, optional exponent.  Returns `none` where Python raises
`ValueError`. -/
def pyFloat (s : String) : Option ℚ :=
  let cs0 := ((s.data.dropWhile Char.isWhitespace).reverse.dropWhile Char.isWhitespace).reverse
  let sp : ℚ × List Char :=
    match cs0 with
    | '+' :: t => (1, t)
    | '-' :: t => (-1, t)
    | t => (1, t)
  let intDigits := sp.2.takeWhile Char.isDigit
  let rest1 := sp.2.dropWhile Char.isDigit
  let fr : List Char × List Char :=
    match rest1 with
    | '.' :: t => (t.takeWhile Char.isDigit, t.dropWhile Char.isDigit)
    | t => ([], t)
  if intDigits.isEmpty && fr.1.isEmpty then none
  else
    let mant : ℚ :=
      sp.1 * ((digitsVal intDigits : ℚ) + (digitsVal fr.1 : ℚ) / (10 : ℚ) ^ fr.1.length)
    match fr.2 with
    | [] => some mant
    | 'e' :: t => parseExp mant t
    | 'E' :: t => parseExp mant t
    | _ => none

/-- Round a rational to the nearest integer, ties to even (the rounding
of Python's `round`). -/
def roundHalfToEven (q : ℚ) : ℤ :=
  if q - ⌊q⌋ < 1 / 2 then ⌊q⌋
  else if 1 / 2 < q - ⌊q⌋ then ⌊q⌋ + 1
  else if ⌊q⌋ % 2 = 0 then ⌊q⌋ else ⌊q⌋ + 1

/-- Python `round(x, ndigits)` on the exact rational value. -/
def pyRound (x : ℚ) (ndigits : ℕ) : ℚ :=
  (roundHalfToEven (x * (10 : ℚ) ^ ndigits) : ℚ) / (10 : ℚ) ^ ndigits

/-! ### Output record shapes (`app/models/schemas.py`)

Python float fields become `ℚ`.  Fields that the service can populate
with `None` (through `dict.get` on a present-but-null key) are `Option
String` in the model. -/

/-- Schema `BondGroup`.  `security_type: str` in pydantic: constructing
the record with a null group key raises a `ValidationError`, so the key
here is a plain `String` and the construction site is fallible (see
`buildBondGroup`). -/
structure BondGroup where
  security_type : String
  total_issuance : ℚ
  average_yield : ℚ
  auction_count : ℕ
  deriving DecidableEq

/-- Schema `BondAggregationResponse`. -/
structure BondAggregationResponse where
  period : String
  currency : String
  data : List BondGroup
  deriving DecidableEq

/-- Schema `YieldCurvePoint`. -/
structure YieldCurvePoint where
  maturity : String
  rate : ℚ
  deriving DecidableEq

/-- Schema `TrendData`. -/
structure TrendData where
  date : String
  total_issuance : ℚ
  deriving DecidableEq

/-- Schema `SpreadAnalysis`.  `date: str` in pydantic: constructing the
record with a null date raises a `ValidationError`, so the date here is
a plain `String` and the construction site in `spreadFromRecord` is
fallible. -/
structure SpreadAnalysis where
  spread_value : ℚ
  is_inverted : Bool
  date : String
  deriving DecidableEq

/-- Schema `LiquidityPoint`. -/
structure LiquidityPoint where
  date : String
  balance_billion : ℚ
  deriving DecidableEq

/-- Schema `InterestRatePoint`. -/
structure InterestRatePoint where
  date : String
  avg_rate : ℚ
  deriving DecidableEq

/-- Schema `DebtPoint`. -/
structure DebtPoint where
  date : String
  total_debt : ℚ
  daily_change : ℚ
  deriving DecidableEq

/-- Schema `EconomicIndicator`. -/
structure EconomicIndicator where
  indicator : String
  value : ℚ
  country : String
  date : String
  source : String
  unit : Option String
  deriving DecidableEq

/-! ### Errors and the page-fetching boundary -/

/-- An upstream fetch failure: `response.raise_for_status()` raising
`httpx.HTTPStatusError` (or a network error from the client). -/
inductive UpstreamError where
  | httpError
  deriving DecidableEq

/-- The exceptions a service method can signal past the fetch boundary:
a propagated upstream failure, the explicit `ValueError("No ... found")`
raised on an empty `data` array, some other error (`KeyError`,
`TypeError`, or `ValueError` from `float`) while reading the single
required record, or a pydantic `ValidationError` raised when a `str`
schema field is handed `None` at output construction. -/
inductive TreasuryError where
  | upstream (e : UpstreamError)
  | noData (msg : String)
  | invalidData (msg : String)
  | validationError (msg : String)
  deriving DecidableEq

/-- One page of the provider response: the `data` array and the parsed
`meta["total-pages"]` entry (`none` when `meta` or the key is absent). -/
structure Page where
  records : List RawRecord
  totalPages : Option ℕ
  deriving DecidableEq

/-! ### The shared pagination loop

Each paginated strategy runs `page = 1; while has_more: fetch; if not
results: break; fold; if page >= meta.get("total-pages", 0): stop; else
page += 1`.  The loop is embedded with explicit fuel: `none` means the
fuel ran out before the loop exited, so a divergence proof shows the
result is `none` for every fuel. -/
def paginate {σ : Type} (fetch : ℕ → Except UpstreamError Page)
    (foldPage : σ → List RawRecord → σ) :
    ℕ → ℕ → σ → Option (Except UpstreamError σ)
  | 0, _, _ => none
  | fuel + 1, page, st =>
    match fetch page with
    | .error e => some (.error e)
    | .ok pg =>
      if pg.records.isEmpty then some (.ok st)
      else
        let st' := foldPage st pg.records
        if pg.totalPages.getD 0 ≤ page then some (.ok st')
        else paginate fetch foldPage fuel (page + 1) st'

/-- The loop's two exit tests at page `n` (plus the propagated fetch
failure): the fetched page is empty, or `page >= meta.get("total-pages",
0)`. -/
def stopCond (fetch : ℕ → Except UpstreamError Page) (n : ℕ) : Prop :=
  match fetch n with
  | .error _ => True
  | .ok pg => pg.records = [] ∨ pg.totalPages.getD 0 ≤ n

/-- An adversarial provider: every page holds one (empty) record and
reports `total-pages` as one more than the page just fetched. -/
def advFetch : ℕ → Except UpstreamError Page :=
  fun n => .ok ⟨[[]], some (n + 1)⟩

/-! ### Strategy 1: grouped sum+average (`get_bond_issuance_summary`) -/

/-- Running aggregate of one group: `{"total_amt": .., "yield_sum": ..,
"count": ..}`. -/
structure BondStats where
  total_amt : ℚ
  yield_sum : ℚ
  count : ℕ
  deriving DecidableEq

/-- The zero entry a `defaultdict` creates on first access. -/
def BondStats.zero : BondStats := ⟨0, 0, 0⟩

/-- The accumulator `agg_data`: group key to running stats, in insertion
order (Python dicts preserve insertion order). -/
abbrev AggState := List (Option String × BondStats)

/-- Apply `f` to the entry of key `k`, creating the zero entry first
when absent (`defaultdict` access). -/
def updateGroup (st : AggState) (k : Option String) (f : BondStats → BondStats) : AggState :=
  match st with
  | [] => [(k, f BondStats.zero)]
  | (k', s) :: rest =>
    if k' = k then (k', f s) :: rest else (k', s) :: updateGroup rest k f

/-- The group key: `item.get("security_type", "Unknown")`. -/
def bondGroupKey (item : RawRecord) : Option String :=
  rgetD item "security_type" "Unknown"

/-- One iteration of the record loop of `get_bond_issuance_summary`
(lines 81-92).  The `try` block mutates `agg_data` statement by
statement, so when `float(amt_str)` succeeds and `float(yield_str)`
raises, the `except ValueError: continue` leaves the amount already
added to `total_amt` with `yield_sum` and `count` untouched; and the
`defaultdict` entry is created even when `float(amt_str)` itself
raises. -/
def bondFoldRecord (st : AggState) (item : RawRecord) : AggState :=
  let key := bondGroupKey item
  match rget item "offering_amount", rget item "high_yield" with
  | some amt_str, some yield_str =>
    if amt_str ≠ "" ∧ yield_str ≠ "" then
      match pyFloat amt_str with
      | none => updateGroup st key id
      | some amt =>
        let st1 := updateGroup st key fun s => { s with total_amt := s.total_amt + amt }
        match pyFloat yield_str with
        | none => st1
        | some y =>
          updateGroup (updateGroup st1 key fun s => { s with yield_sum := s.yield_sum + y })
            key fun s => { s with count := s.count + 1 }
    else st
  | _, _ => st

/-- The per-page loop `for item in results`. -/
def bondFoldPage (st : AggState) (results : List RawRecord) : AggState :=
  results.foldl bondFoldRecord st

/-- The bond-summary pagination loop runs out of any amount of fuel
against `fetch`: no fuel bound returns a result, from any starting page
and state. -/
def bondLoopNeverStops (fetch : ℕ → Except UpstreamError Page) : Prop :=
  ∀ (fuel page : ℕ) (st : AggState), paginate fetch bondFoldPage fuel page st = none

/-- The accumulator produced by a flat stream of records (the
concatenation of the fetched pages). -/
def bondAgg (records : List RawRecord) : AggState :=
  records.foldl bondFoldRecord []

/-- The output record for a group whose key is an actual string
(lines 108-113). -/
def mkBondGroup (g : String) (s : BondStats) : BondGroup :=
  ⟨g, pyRound s.total_amt 2, pyRound (s.yield_sum / (s.count : ℚ)) 4, s.count⟩

/-- The `BondGroup(...)` construction (line 108): pydantic v2 validates
`security_type: str`, so a null group key (a present-but-null upstream
`security_type`) raises a `ValidationError` instead of producing a
record. -/
def buildBondGroup (k : Option String) (s : BondStats) : Except TreasuryError BondGroup :=
  match k with
  | none => .error (.validationError "security_type: Input should be a valid string")
  | some g => .ok (mkBondGroup g s)

/-- The output formatting loop (lines 104-113): emit each group whose
count is positive, in accumulator order; a `ValidationError` raised by
any `BondGroup(...)` construction aborts the whole call, so no partial
list escapes. -/
def bondSummaryList (st : AggState) : Except TreasuryError (List BondGroup) :=
  match st with
  | [] => .ok []
  | (k, s) :: rest =>
    if 0 < s.count then
      match buildBondGroup k s with
      | .error e => .error e
      | .ok g =>
        match bondSummaryList rest with
        | .error e => .error e
        | .ok lst => .ok (g :: lst)
    else bondSummaryList rest

/-- End-to-end record stream to summary list. -/
def bondSummary (records : List RawRecord) : Except TreasuryError (List BondGroup) :=
  bondSummaryList (bondAgg records)

/-- The string `f"Last {months_back} Months"`. -/
def mkPeriod (months_back : ℕ) : String :=
  "Last " ++ Nat.repr months_back ++ " Months"

/-- `get_bond_issuance_summary` behind the fetch boundary: run the
pagination loop from page 1 with an empty accumulator and format the
result; an upstream failure or a `ValidationError` during formatting
aborts the call. -/
def get_bond_issuance_summary (fetch : ℕ → Except UpstreamError Page)
    (fuel : ℕ) (months_back : ℕ) : Option (Except TreasuryError BondAggregationResponse) :=
  (paginate fetch bondFoldPage fuel 1 []).map fun r =>
    match r with
    | .error e => .error (.upstream e)
    | .ok st =>
      match bondSummaryList st with
      | .error e => .error e
      | .ok lst => .ok ⟨mkPeriod months_back, "USD", lst⟩

/-- Equality test on `Except` values, for evaluating concrete service
results. -/
instance {ε α : Type} [DecidableEq ε] [DecidableEq α] : DecidableEq (Except ε α) := fun a b =>
  match a, b with
  | .error e, .error f =>
    match decEq e f with
    | isTrue h => isTrue (by rw [h])
    | isFalse h => isFalse fun hh => h (Except.error.inj hh)
  | .error _, .ok _ => isFalse Except.noConfusion
  | .ok _, .error _ => isFalse Except.noConfusion
  | .ok x, .ok y =>
    match decEq x y with
    | isTrue h => isTrue (by rw [h])
    | isFalse h => isFalse fun hh => h (Except.ok.inj hh)

/-! ### Sort pass -/

/-- Lexicographic at-most on code-point lists, as an executable Boolean
(CPython compares strings by code point). -/
def charListLeb : List Char → List Char → Bool
  | [], _ => true
  | _ :: _, [] => false
  | c :: cs, d :: ds => if c < d then true else if d < c then false else charListLeb cs ds

/-- Executable string comparison used by the sort pass. -/
def strLeb (a b : String) : Bool :=
  charListLeb a.data b.data

/-- Python `list.sort(key=...)`: a stable ascending sort by a string
key.  `List.insertionSort` with the key preorder is stable, so it
produces the same permutation as CPython's stable sort. -/
def sortByKey {α : Type} (key : α → String) (l : List α) : List α :=
  @List.insertionSort α (fun a b => strLeb (key a) (key b) = true)
    (fun _ _ => inferInstanceAs (Decidable (_ = true))) l

/-! ### Strategy 2: grouped sum by period (`get_issuance_trend`) -/

/-- Add `v` to the entry of key `k` of a `defaultdict(float)`, creating
it at `0.0` when absent. -/
def addToKey : List (String × ℚ) → String → ℚ → List (String × ℚ)
  | [], k, v => [(k, v)]
  | (k', x) :: rest, k, v =>
    if k' = k then (k', x + v) :: rest else (k', x) :: addToKey rest k v

/-- Python `s[:7]` on the code points of a string. -/
def strTake (s : String) (n : ℕ) : String :=
  ⟨s.data.take n⟩

/-- One iteration of the record loop of `get_issuance_trend`
(lines 214-225): key is the first 7 characters of `auction_date`;
`monthly_totals` is only touched after `float(amt_str)` succeeded. -/
def monthlyFoldRecord (st : List (String × ℚ)) (item : RawRecord) : List (String × ℚ) :=
  match rget item "auction_date", rget item "offering_amount" with
  | some auction_date, some amt_str =>
    if auction_date ≠ "" ∧ amt_str ≠ "" then
      match pyFloat amt_str with
      | some amount => addToKey st (strTake auction_date 7) amount
      | none => st
    else st
  | _, _ => st

/-- The per-page loop of `get_issuance_trend`. -/
def monthlyFoldPage (st : List (String × ℚ)) (results : List RawRecord) : List (String × ℚ) :=
  results.foldl monthlyFoldRecord st

/-- Output of `get_issuance_trend` from the flat record stream: round
each monthly total to 2 digits, then sort ascending by date
(lines 237-243). -/
def issuanceTrendPoints (records : List RawRecord) : List TrendData :=
  sortByKey TrendData.date
    ((records.foldl monthlyFoldRecord []).map fun kv => ⟨kv.1, pyRound kv.2 2⟩)

/-! ### Strategy 4: flat ordered series (`get_tga_liquidity`,
`get_debt_cost_trend`) -/

/-- One iteration of the record loop of `get_tga_liquidity`
(lines 344-359): strip commas, parse, divide by 1e9, round to 2. -/
def tgaFoldRecord (acc : List LiquidityPoint) (item : RawRecord) : List LiquidityPoint :=
  match rget item "record_date", rget item "close_today_bal" with
  | some record_date, some close_balance_str =>
    if record_date ≠ "" ∧ close_balance_str ≠ "" then
      match pyFloat (stripCommas close_balance_str) with
      | some balance => acc ++ [⟨record_date, pyRound (balance / 1000000000) 2⟩]
      | none => acc
    else acc
  | _, _ => acc

/-- Output of `get_tga_liquidity` from the flat record stream
(line 371: sort by date). -/
def tgaLiquidityPoints (records : List RawRecord) : List LiquidityPoint :=
  sortByKey LiquidityPoint.date (records.foldl tgaFoldRecord [])

/-- One iteration of the record loop of `get_debt_cost_trend`
(lines 418-432): strip commas, parse, round to 4. -/
def rateFoldRecord (acc : List InterestRatePoint) (item : RawRecord) : List InterestRatePoint :=
  match rget item "record_date", rget item "avg_interest_rate_amt" with
  | some record_date, some avg_rate_str =>
    if record_date ≠ "" ∧ avg_rate_str ≠ "" then
      match pyFloat (stripCommas avg_rate_str) with
      | some avg_rate => acc ++ [⟨record_date, pyRound avg_rate 4⟩]
      | none => acc
    else acc
  | _, _ => acc

/-- Output of `get_debt_cost_trend` from the flat record stream
(line 444: sort by date). -/
def debtCostPoints (records : List RawRecord) : List InterestRatePoint :=
  sortByKey InterestRatePoint.date (records.foldl rateFoldRecord [])

/-! ### Strategy 5: flat ordered series with running delta
(`get_debt_history`) -/

/-- One iteration of the record loop of `get_debt_history`
(lines 491-505): collect `(record_date, total_debt)` pairs, unrounded. -/
def debtFoldRecord (acc : List (String × ℚ)) (item : RawRecord) : List (String × ℚ) :=
  match rget item "record_date", rget item "tot_pub_debt_out_amt" with
  | some record_date, some debt_str =>
    if record_date ≠ "" ∧ debt_str ≠ "" then
      match pyFloat (stripCommas debt_str) with
      | some total_debt => acc ++ [(record_date, total_debt)]
      | none => acc
    else acc
  | _, _ => acc

/-- The collected debt records sorted ascending by date (line 517). -/
def debtSortedRecords (records : List RawRecord) : List (String × ℚ) :=
  sortByKey Prod.fst (records.foldl debtFoldRecord [])

/-- Tail of the delta loop of `get_debt_history` (lines 521-532), with
`prev` the previous record's unrounded `total_debt`. -/
def deltaTail (prev : ℚ) : List (String × ℚ) → List DebtPoint
  | [] => []
  | (d, v) :: rest => ⟨d, pyRound v 2, pyRound (v - prev) 2⟩ :: deltaTail v rest

/-- The delta loop of `get_debt_history`: the first point gets
`daily_change = round(0.0, 2)`, every later point the rounded
difference from its predecessor's unrounded value. -/
def deltaScan : List (String × ℚ) → List DebtPoint
  | [] => []
  | (d, v) :: rest => ⟨d, pyRound v 2, pyRound 0 2⟩ :: deltaTail v rest

/-- Output of `get_debt_history` from the flat record stream: sort,
then run the delta scan. -/
def debtHistoryPoints (records : List RawRecord) : List DebtPoint :=
  deltaScan (debtSortedRecords records)

/-! ### Strategy 3: single-value extraction (`get_daily_yield_curve`,
`get_10_2_spread`, `get_total_debt`) -/

/-- The fixed field-to-label table of `get_daily_yield_curve`
(lines 145-154). -/
def maturityMapping : List (String × String) :=
  [("BC_1MONTH", "1 Month"), ("BC_3MONTH", "3 Month"), ("BC_1YEAR", "1 Year"),
   ("BC_2YEAR", "2 Year"), ("BC_5YEAR", "5 Year"), ("BC_10YEAR", "10 Year"),
   ("BC_20YEAR", "20 Year"), ("BC_30YEAR", "30 Year")]

/-- The extraction loop of `get_daily_yield_curve` (lines 156-170): walk
the table in order, keep a label exactly when the field is present,
non-null and parses. -/
def yieldCurveFromRecord (latest : RawRecord) : List YieldCurvePoint :=
  maturityMapping.filterMap fun fl =>
    ((rget latest fl.1).bind pyFloat).map fun rate => ⟨fl.2, rate⟩

/-- `get_daily_yield_curve` behind the fetch boundary: empty `data`
raises `ValueError("No yield curve data found")`. -/
def get_daily_yield_curve (fetched : Except UpstreamError (List RawRecord)) :
    Except TreasuryError (List YieldCurvePoint) :=
  match fetched with
  | .error e => .error (.upstream e)
  | .ok [] => .error (.noData "No yield curve data found")
  | .ok (latest :: _) => .ok (yieldCurveFromRecord latest)

/-- The body of `get_10_2_spread` after the single-record fetch
(lines 267-291).  The `.get("record_date", "Unknown")` default only
covers an absent key, so a present-but-null `record_date` reaches the
`SpreadAnalysis(...)` construction as `None` once both rates have
validated, and pydantic (`date: str`) raises a `ValidationError`
there. -/
def spreadFromRecord (latest : RawRecord) : Except TreasuryError SpreadAnalysis :=
  let record_date := rgetD latest "record_date" "Unknown"
  match rget latest "BC_10YEAR", rget latest "BC_2YEAR" with
  | none, _ => .error (.invalidData "Missing 10-year or 2-year rate data")
  | _, none => .error (.invalidData "Missing 10-year or 2-year rate data")
  | some rate_10y_str, some rate_2y_str =>
    match pyFloat rate_10y_str, pyFloat rate_2y_str with
    | some rate_10y, some rate_2y =>
      let spread_value := rate_10y - rate_2y
      match record_date with
      | none => .error (.validationError "date: Input should be a valid string")
      | some d => .ok ⟨pyRound spread_value 4, decide (spread_value < 0), d⟩
    | _, _ => .error (.invalidData "Invalid rate data")

/-- `get_10_2_spread` behind the fetch boundary. -/
def get_10_2_spread (fetched : Except UpstreamError (List RawRecord)) :
    Except TreasuryError SpreadAnalysis :=
  match fetched with
  | .error e => .error (.upstream e)
  | .ok [] => .error (.noData "No yield curve data found")
  | .ok (latest :: _) => spreadFromRecord latest

/-- `get_total_debt` behind the fetch boundary (lines 23-45): empty
`data` raises `ValueError("No debt data found")`; a missing or
unparsable amount or date raises `KeyError`/`TypeError`/`ValueError`. -/
def get_total_debt (fetched : Except UpstreamError (List RawRecord)) :
    Except TreasuryError EconomicIndicator :=
  match fetched with
  | .error e => .error (.upstream e)
  | .ok [] => .error (.noData "No debt data found")
  | .ok (latest :: _) =>
    match rget latest "tot_pub_debt_out_amt" with
    | none => .error (.invalidData "tot_pub_debt_out_amt")
    | some amt_str =>
      match pyFloat amt_str with
      | none => .error (.invalidData "could not convert string to float")
      | some value =>
        match rget latest "record_date" with
        | none => .error (.invalidData "record_date")
        | some date =>
          .ok ⟨"Total Public Debt Outstanding", value, "United States", date,
               "US Treasury", some "USD"⟩

/-! ### Concrete data for witness evaluations -/

/-- The two-page scenario of the spec, flattened: two valid Bill
auctions of 100 at 5.0 and 200 at 5.5. -/
def demoBondRecords : List RawRecord :=
  [[("security_type", some "Bill"), ("offering_amount", some "100"), ("high_yield", some "5.0")],
   [("security_type", some "Bill"), ("offering_amount", some "200"), ("high_yield", some "5.5")]]

/-- Three debt snapshots arriving out of date order, with values 1000,
1050, 1040 in chronological order. -/
def demoDebtRecords : List RawRecord :=
  [[("record_date", some "2024-01-03"), ("tot_pub_debt_out_amt", some "1050")],
   [("record_date", some "2024-01-02"), ("tot_pub_debt_out_amt", some "1000")],
   [("record_date", some "2024-01-04"), ("tot_pub_debt_out_amt", some "1040")]]

/-! ## Supporting lemmas -/

/-- Rounding to the nearest integer moves the value by at most a half. -/
theorem roundHalfToEven_abs (q : ℚ) : |(roundHalfToEven q : ℚ) - q| ≤ 1 / 2 := by
  have h0 : ((⌊q⌋ : ℚ)) ≤ q := Int.floor_le q
  have h1 : q < ⌊q⌋ + 1 := Int.lt_floor_add_one q
  unfold roundHalfToEven
  split_ifs with ha hb hc
  · rw [abs_le]; constructor <;> linarith
  · rw [abs_le]; push_cast; constructor <;> linarith
  · rw [abs_le]
    have ha' := not_lt.mp ha
    constructor <;> linarith
  · rw [abs_le]
    have ha' := not_lt.mp ha
    have hb' := not_lt.mp hb
    push_cast
    constructor <;> linarith

/-- `round(x, n)` moves the value by at most half an ulp of the last
kept digit. -/
theorem pyRound_abs (x : ℚ) (n : ℕ) : |pyRound x n - x| ≤ 1 / (2 * 10 ^ n) := by
  have hpos : (0 : ℚ) < 10 ^ n := by positivity
  have h := roundHalfToEven_abs (x * 10 ^ n)
  unfold pyRound
  rw [show (roundHalfToEven (x * 10 ^ n) : ℚ) / 10 ^ n - x
      = ((roundHalfToEven (x * 10 ^ n) : ℚ) - x * 10 ^ n) / 10 ^ n from by field_simp; ring]
  rw [abs_div, abs_of_pos hpos]
  calc |(roundHalfToEven (x * 10 ^ n) : ℚ) - x * 10 ^ n| / 10 ^ n
      ≤ (1 / 2) / 10 ^ n := (div_le_div_iff_of_pos_right hpos).mpr h
    _ = 1 / (2 * 10 ^ n) := by ring

/-- Rounding zero gives exactly zero. -/
theorem pyRound_zero (n : ℕ) : pyRound 0 n = 0 := by
  unfold pyRound roundHalfToEven
  norm_num

/-- The executable comparison agrees with the lexicographic order on
code-point lists. -/
theorem charListLeb_iff_not_lex : ∀ l₁ l₂ : List Char,
    charListLeb l₁ l₂ = true ↔ ¬ List.Lex (· < ·) l₂ l₁
  | [], l₂ => iff_of_true rfl (List.Lex.not_nil_right _ _)
  | c :: cs, [] => iff_of_false (by simp [charListLeb]) (fun hn => hn List.Lex.nil)
  | c :: cs, d :: ds => by
    rcases lt_trichotomy c d with h | h | h
    · refine iff_of_true (by simp [charListLeb, h]) ?_
      intro hl
      cases hl with
      | cons h' => exact lt_irrefl _ h
      | rel h' => exact lt_asymm h h'
    · subst h
      have hrec := charListLeb_iff_not_lex cs ds
      simp only [charListLeb, lt_irrefl, if_false]
      rw [hrec]
      constructor
      · intro hn hl
        cases hl with
        | cons h' => exact hn h'
        | rel h' => exact lt_irrefl _ h'
      · intro hn hl
        exact hn (List.Lex.cons hl)
    · refine iff_of_false ?_ (fun hn => hn (List.Lex.rel h))
      simp [charListLeb, h, asymm h]

/-- The executable comparison agrees with `String` order. -/
theorem strLeb_iff (a b : String) : strLeb a b = true ↔ a ≤ b := by
  rw [← not_lt, String.lt_iff_toList_lt]
  exact charListLeb_iff_not_lex a.data b.data

/-- The sort pass produces a sequence non-decreasing in its key. -/
theorem sortByKey_sorted {α : Type} (key : α → String) (l : List α) :
    List.Sorted (fun a b => key a ≤ key b) (sortByKey key l) := by
  haveI inst1 : IsTotal α (fun a b => strLeb (key a) (key b) = true) := ⟨fun a b => by
    rcases le_total (key a) (key b) with h | h
    · exact Or.inl ((strLeb_iff _ _).mpr h)
    · exact Or.inr ((strLeb_iff _ _).mpr h)⟩
  haveI inst2 : IsTrans α (fun a b => strLeb (key a) (key b) = true) := ⟨fun a b c h1 h2 =>
    (strLeb_iff _ _).mpr (le_trans ((strLeb_iff _ _).mp h1) ((strLeb_iff _ _).mp h2))⟩
  have hs := @List.sorted_insertionSort α (fun a b => strLeb (key a) (key b) = true)
    (fun _ _ => inferInstanceAs (Decidable (_ = true))) inst1 inst2 l
  exact List.Pairwise.imp (fun h => (strLeb_iff _ _).mp h) hs

/-- The pagination loop returns a result once a stop condition is in
reach: if page `page + d` satisfies one, fuel `d + 1` suffices. -/
theorem paginate_terminates {σ : Type} (fetch : ℕ → Except UpstreamError Page)
    (foldPage : σ → List RawRecord → σ) :
    ∀ (d page : ℕ) (st : σ), stopCond fetch (page + d) →
      ∃ r, paginate fetch foldPage (d + 1) page st = some r := by
  intro d
  induction d with
  | zero =>
    intro page st hstop
    unfold stopCond at hstop
    unfold paginate
    rcases hfe : fetch page with e | pg
    · exact ⟨.error e, rfl⟩
    · rw [Nat.add_zero, hfe] at hstop
      rcases hstop with hrec | htp
      · refine ⟨.ok st, ?_⟩
        simp [hrec]
      · by_cases hrec : pg.records.isEmpty
        · exact ⟨.ok st, by simp [hrec]⟩
        · exact ⟨.ok (foldPage st pg.records), by simp [hrec, htp]⟩
  | succ d ih =>
    intro page st hstop
    unfold paginate
    rcases hfe : fetch page with e | pg
    · exact ⟨.error e, rfl⟩
    · by_cases hrec : pg.records.isEmpty
      · exact ⟨.ok st, by simp [hrec]⟩
      · by_cases htp : pg.totalPages.getD 0 ≤ page
        · exact ⟨.ok (foldPage st pg.records), by simp [hrec, htp]⟩
        · have hstop' : stopCond fetch (page + 1 + d) := by
            rw [show page + 1 + d = page + (d + 1) from by omega]
            exact hstop
          obtain ⟨r, hr⟩ := ih (page + 1) (foldPage st pg.records) hstop'
          exact ⟨r, by simp [hrec, htp, hr]⟩

/-- Against the adversarial provider the loop consumes every amount of
fuel without exiting. -/
theorem advFetch_neverStops : bondLoopNeverStops advFetch := by
  intro fuel
  induction fuel with
  | zero => intro page st; rfl
  | succ n ih =>
    intro page st
    unfold paginate advFetch
    simp only [List.isEmpty, Option.getD, if_false]
    have h1 : ¬ page + 1 ≤ page := by omega
    simp [h1]
    exact ih (page + 1) _

/-- The delta loop preserves length. -/
theorem deltaTail_length : ∀ (xs : List (String × ℚ)) (prev : ℚ),
    (deltaTail prev xs).length = xs.length
  | [], _ => rfl
  | (d, v) :: rest, prev => by simp [deltaTail, deltaTail_length rest v]

/-- The delta scan preserves length. -/
theorem deltaScan_length : ∀ xs : List (String × ℚ), (deltaScan xs).length = xs.length
  | [] => rfl
  | (d, v) :: rest => by simp [deltaScan, deltaTail_length rest v]

/-- The delta loop keeps each record's date. -/
theorem deltaTail_map_date : ∀ (xs : List (String × ℚ)) (prev : ℚ),
    (deltaTail prev xs).map DebtPoint.date = xs.map Prod.fst
  | [], _ => rfl
  | (d, v) :: rest, prev => by simp [deltaTail, deltaTail_map_date rest v]

/-- The delta scan keeps each record's date. -/
theorem deltaScan_map_date : ∀ xs : List (String × ℚ),
    (deltaScan xs).map DebtPoint.date = xs.map Prod.fst
  | [] => rfl
  | (d, v) :: rest => by simp [deltaScan, deltaTail_map_date rest v]

/-- The first point of the delta scan carries a zero change. -/
theorem deltaScan_head (xs : List (String × ℚ)) (p : DebtPoint)
    (h : (deltaScan xs).head? = some p) : p.daily_change = 0 := by
  cases xs with
  | nil => simp [deltaScan] at h
  | cons x rest =>
    obtain ⟨d, v⟩ := x
    simp [deltaScan] at h
    rw [← h]
    exact pyRound_zero 2

/-- First point of the delta loop: the change is taken against `prev`. -/
theorem deltaTail_get_zero (xs : List (String × ℚ)) (prev : ℚ) (b : String × ℚ)
    (hb : xs[0]? = some b) :
    (deltaTail prev xs)[0]? = some ⟨b.1, pyRound b.2 2, pyRound (b.2 - prev) 2⟩ := by
  cases xs with
  | nil => simp at hb
  | cons x rest =>
    obtain ⟨d, v⟩ := x
    simp at hb
    simp [deltaTail, ← hb]

/-- Later points of the delta loop: the change is against the previous
record's value. -/
theorem deltaTail_get_succ : ∀ (xs : List (String × ℚ)) (prev : ℚ) (i : ℕ) (a b : String × ℚ),
    xs[i]? = some a → xs[i + 1]? = some b →
    (deltaTail prev xs)[i + 1]? = some ⟨b.1, pyRound b.2 2, pyRound (b.2 - a.2) 2⟩ := by
  intro xs
  induction xs with
  | nil => intro prev i a b ha; simp at ha
  | cons x rest ih =>
    intro prev i a b ha hb
    obtain ⟨d, v⟩ := x
    cases i with
    | zero =>
      simp at ha
      simp [deltaTail]
      have hz := deltaTail_get_zero rest v b (by simpa using hb)
      subst ha
      simpa using hz
    | succ j =>
      simp only [List.getElem?_cons_succ] at ha hb
      simp only [deltaTail, List.getElem?_cons_succ]
      exact ih v j a b ha hb

/-- Point `i + 1` of the delta scan differs from point `i` by the
rounded difference of the two underlying values. -/
theorem deltaScan_get_succ (xs : List (String × ℚ)) (i : ℕ) (a b : String × ℚ)
    (ha : xs[i]? = some a) (hb : xs[i + 1]? = some b) :
    (deltaScan xs)[i + 1]? = some ⟨b.1, pyRound b.2 2, pyRound (b.2 - a.2) 2⟩ := by
  cases xs with
  | nil => simp at ha
  | cons x rest =>
    obtain ⟨d, v⟩ := x
    cases i with
    | zero =>
      simp at ha
      simp only [deltaScan, List.getElem?_cons_succ]
      have hz := deltaTail_get_zero rest v b (by simpa using hb)
      subst ha
      simpa using hz
    | succ j =>
      simp only [List.getElem?_cons_succ] at ha hb
      simp only [deltaScan, List.getElem?_cons_succ]
      exact deltaTail_get_succ rest v j a b ha hb

/-- Every record of a successful formatting pass comes from a
positive-count group with a string key. -/
theorem bondSummaryList_ok_mem : ∀ (st : AggState) (lst : List BondGroup),
    bondSummaryList st = .ok lst → ∀ e ∈ lst,
    ∃ (g : String) (s : BondStats), (some g, s) ∈ st ∧ 0 < s.count ∧ e = mkBondGroup g s := by
  intro st
  induction st with
  | nil =>
    intro lst hok e he
    simp [bondSummaryList] at hok
    subst hok
    simp at he
  | cons x rest ih =>
    intro lst hok e he
    obtain ⟨k, s⟩ := x
    unfold bondSummaryList at hok
    by_cases hc : 0 < s.count
    · rw [if_pos hc] at hok
      cases k with
      | none => simp [buildBondGroup] at hok
      | some g =>
        simp only [buildBondGroup] at hok
        rcases hrest : bondSummaryList rest with er | lst'
        · rw [hrest] at hok
          simp at hok
        · rw [hrest] at hok
          simp at hok
          subst hok
          rcases List.mem_cons.mp he with he1 | he1
          · exact ⟨g, s, List.mem_cons_self _ _, hc, he1⟩
          · obtain ⟨g', s', hm, hc', he2⟩ := ih lst' hrest e he1
            exact ⟨g', s', List.mem_cons_of_mem _ hm, hc', he2⟩
    · rw [if_neg hc] at hok
      obtain ⟨g', s', hm, hc', he2⟩ := ih lst hok e he
      exact ⟨g', s', List.mem_cons_of_mem _ hm, hc', he2⟩

/-- Every positive-count group with a string key is emitted by a
successful formatting pass. -/
theorem bondSummaryList_mem_ok : ∀ (st : AggState) (lst : List BondGroup)
    (g : String) (s : BondStats),
    bondSummaryList st = .ok lst → (some g, s) ∈ st → 0 < s.count →
    mkBondGroup g s ∈ lst := by
  intro st
  induction st with
  | nil =>
    intro lst g s hok hm
    simp at hm
  | cons x rest ih =>
    intro lst g s hok hm hc
    obtain ⟨k, s'⟩ := x
    unfold bondSummaryList at hok
    rcases List.mem_cons.mp hm with hm1 | hm1
    · have hk : k = some g := ((Prod.mk.injEq _ _ _ _).mp hm1.symm).1
      have hs : s' = s := ((Prod.mk.injEq _ _ _ _).mp hm1.symm).2
      subst hk
      subst hs
      rw [if_pos hc] at hok
      simp only [buildBondGroup] at hok
      rcases hrest : bondSummaryList rest with er | lst'
      · rw [hrest] at hok
        simp at hok
      · rw [hrest] at hok
        simp at hok
        subst hok
        exact List.mem_cons_self _ _
    · by_cases hc' : 0 < s'.count
      · rw [if_pos hc'] at hok
        cases k with
        | none => simp [buildBondGroup] at hok
        | some g' =>
          simp only [buildBondGroup] at hok
          rcases hrest : bondSummaryList rest with er | lst'
          · rw [hrest] at hok
            simp at hok
          · rw [hrest] at hok
            simp at hok
            subst hok
            exact List.mem_cons_of_mem _ (ih lst' g s hrest hm1 hc)
      · rw [if_neg hc'] at hok
        exact ih lst g s hok hm1 hc

/-- The formatting pass raises a validation error exactly when some
positive-count group carries the null key. -/
theorem bondSummaryList_error_iff : ∀ st : AggState,
    (∃ err, bondSummaryList st = .error err) ↔
      ∃ s : BondStats, ((none : Option String), s) ∈ st ∧ 0 < s.count := by
  intro st
  induction st with
  | nil => simp [bondSummaryList]
  | cons x rest ih =>
    obtain ⟨k, s⟩ := x
    unfold bondSummaryList
    by_cases hc : 0 < s.count
    · rw [if_pos hc]
      cases k with
      | none =>
        simp only [buildBondGroup]
        refine iff_of_true ⟨_, rfl⟩ ⟨s, List.mem_cons_self _ _, hc⟩
      | some g =>
        simp only [buildBondGroup]
        rcases hrest : bondSummaryList rest with er | lst'
        · refine iff_of_true ⟨er, rfl⟩ ?_
          obtain ⟨s', hm, hc'⟩ := ih.mp ⟨er, hrest⟩
          exact ⟨s', List.mem_cons_of_mem _ hm, hc'⟩
        · constructor
          · rintro ⟨err, herr⟩
            simp at herr
          · rintro ⟨s', hm, hc'⟩
            rcases List.mem_cons.mp hm with hm1 | hm1
            · exact absurd ((Prod.mk.injEq _ _ _ _).mp hm1.symm).1 (by simp)
            · obtain ⟨er, her⟩ := ih.mpr ⟨s', hm1, hc'⟩
              rw [her] at hrest
              exact absurd hrest (by simp)
    · rw [if_neg hc]
      rw [ih]
      constructor
      · rintro ⟨s', hm, hc'⟩
        exact ⟨s', List.mem_cons_of_mem _ hm, hc'⟩
      · rintro ⟨s', hm, hc'⟩
        rcases List.mem_cons.mp hm with hm1 | hm1
        · have hse : s' = s := ((Prod.mk.injEq _ _ _ _).mp hm1.symm).2.symm
          subst hse
          exact absurd hc' hc
        · exact ⟨s', hm1, hc'⟩

/-- A `defaultdict` update only touches the accessed key. -/
theorem mem_updateGroup : ∀ {st : AggState} {k g : Option String} {s : BondStats}
    {f : BondStats → BondStats}, (g, s) ∈ updateGroup st k f → (g, s) ∈ st ∨ g = k := by
  intro st
  induction st with
  | nil =>
    intro k g s f h
    simp [updateGroup] at h
    exact Or.inr h.1
  | cons e rest ih =>
    intro k g s f h
    obtain ⟨k', s'⟩ := e
    unfold updateGroup at h
    by_cases hk : k' = k
    · rw [if_pos hk] at h
      rcases List.mem_cons.mp h with h1 | h1
      · exact Or.inr (by rw [(Prod.mk.injEq _ _ _ _).mp h1 |>.1, hk])
      · exact Or.inl (List.mem_cons_of_mem _ h1)
    · rw [if_neg hk] at h
      rcases List.mem_cons.mp h with h1 | h1
      · exact Or.inl (List.mem_cons.mpr (Or.inl h1))
      · rcases ih h1 with h2 | h2
        · exact Or.inl (List.mem_cons_of_mem _ h2)
        · exact Or.inr h2

/-- Folding one record touches only the record's own group key. -/
theorem bondFoldRecord_mem {st : AggState} {r : RawRecord} {g : Option String} {s : BondStats}
    (h : (g, s) ∈ bondFoldRecord st r) : (g, s) ∈ st ∨ g = bondGroupKey r := by
  unfold bondFoldRecord at h
  split at h
  · split at h
    · split at h
      · exact mem_updateGroup h
      · split at h
        · exact mem_updateGroup h
        · rcases mem_updateGroup h with h1 | h1
          · rcases mem_updateGroup h1 with h2 | h2
            · exact (mem_updateGroup h2).imp_left id
            · exact Or.inr h2
          · exact Or.inr h1
    · exact Or.inl h
  · exact Or.inl h

/-- Extraction step on a field whose coercion fails. -/
theorem curveStep_none {c : String → Option ℚ} {x : String × String}
    {t : List (String × String)} (hc : c x.1 = none) :
    List.filterMap (fun fl : String × String =>
        (c fl.1).map fun q => YieldCurvePoint.mk fl.2 q) (x :: t)
      = List.filterMap (fun fl => (c fl.1).map fun q => YieldCurvePoint.mk fl.2 q) t := by
  rw [List.filterMap_cons]
  simp [hc]

/-- Extraction step on a field whose coercion succeeds. -/
theorem curveStep_some {c : String → Option ℚ} {x : String × String}
    {t : List (String × String)} {q : ℚ} (hc : c x.1 = some q) :
    List.filterMap (fun fl : String × String =>
        (c fl.1).map fun q => YieldCurvePoint.mk fl.2 q) (x :: t)
      = YieldCurvePoint.mk x.2 q
          :: List.filterMap (fun fl => (c fl.1).map fun q => YieldCurvePoint.mk fl.2 q) t := by
  rw [List.filterMap_cons]
  simp [hc]

/-- The emitted labels are a subsequence of the table's labels. -/
theorem curveSublist (c : String → Option ℚ) :
    ∀ L : List (String × String),
      ((L.filterMap fun fl => (c fl.1).map fun q => YieldCurvePoint.mk fl.2 q).map
        YieldCurvePoint.maturity).Sublist (L.map Prod.snd) := by
  intro L
  induction L with
  | nil => simp
  | cons x t ih =>
    cases hc : c x.1 with
    | none =>
      rw [curveStep_none hc, List.map_cons]
      exact ih.cons _
    | some q =>
      rw [curveStep_some hc, List.map_cons, List.map_cons]
      exact ih.cons₂ _

/-- With pairwise-distinct labels, a label is emitted exactly when its
own field coerces. -/
theorem curveMem (c : String → Option ℚ) :
    ∀ L : List (String × String), (L.map Prod.snd).Nodup →
      ∀ p ∈ L,
        (p.2 ∈ (L.filterMap fun fl => (c fl.1).map fun q => YieldCurvePoint.mk fl.2 q).map
            YieldCurvePoint.maturity ↔ ∃ q, c p.1 = some q) := by
  intro L
  induction L with
  | nil => intro _ p hp; simp at hp
  | cons x t ih =>
    intro hnd p hp
    simp only [List.map_cons, List.nodup_cons] at hnd
    rcases List.mem_cons.mp hp with hpx | hpt
    · subst hpx
      cases hc : c p.1 with
      | none =>
        rw [curveStep_none hc]
        constructor
        · intro hmem
          obtain ⟨pt, hpt2, hlab⟩ := List.mem_map.mp hmem
          obtain ⟨fl, hfl, hsome⟩ := List.mem_filterMap.mp hpt2
          obtain ⟨q, hq, hpt3⟩ := Option.map_eq_some'.mp hsome
          exfalso
          apply hnd.1
          rw [← hlab, ← hpt3]
          exact List.mem_map.mpr ⟨fl, hfl, rfl⟩
        · rintro ⟨q, hq⟩
          exact absurd hq (by simp)
      | some q =>
        rw [curveStep_some hc, List.map_cons]
        exact iff_of_true (List.mem_cons_self _ _) ⟨q, rfl⟩
    · have hx2 : x.2 ≠ p.2 := fun heq => hnd.1 (heq ▸ List.mem_map.mpr ⟨p, hpt, rfl⟩)
      cases hc : c x.1 with
      | none =>
        rw [curveStep_none hc]
        exact ih hnd.2 p hpt
      | some q =>
        rw [curveStep_some hc, List.map_cons, List.mem_cons]
        rw [ih hnd.2 p hpt]
        constructor
        · intro hor
          rcases hor with heq | hmem
          · exact absurd heq.symm hx2
          · exact hmem
        · exact Or.inr

/-! ## Claim theorems -/

/-- Claim C1 (amended): when the grouped sum+average call succeeds,
every emitted record is exactly `(group, round(total_amt, 2),
round(yield_sum / count, 4), count)` for an accumulator group with
positive count and a string key — the average is the quotient of the
exact (unrounded) running sums, so rounding happens once at output —
and conversely every positive-count group with a string key is emitted;
a group with count 0 is never emitted, so the division is gated on a
positive count.  The call instead raises a pydantic validation error,
emitting nothing, exactly when some positive-count group carries the
null key (a present-but-null `security_type`), since `BondGroup`
requires a string. -/
theorem claim_C1 (records : List RawRecord) :
    (∀ lst, bondSummary records = .ok lst →
      (∀ e ∈ lst, 0 < e.auction_count ∧
        ∃ s : BondStats, (some e.security_type, s) ∈ bondAgg records ∧ 0 < s.count ∧
          e.auction_count = s.count ∧ e.total_issuance = pyRound s.total_amt 2 ∧
          e.average_yield = pyRound (s.yield_sum / (s.count : ℚ)) 4) ∧
      (∀ (g : String) (s : BondStats), (some g, s) ∈ bondAgg records → 0 < s.count →
        mkBondGroup g s ∈ lst)) ∧
    ((∃ err, bondSummary records = .error err) ↔
      ∃ s : BondStats, ((none : Option String), s) ∈ bondAgg records ∧ 0 < s.count) := by
  constructor
  · intro lst hok
    constructor
    · intro e he
      obtain ⟨g, s, hm, hc, he2⟩ := bondSummaryList_ok_mem (bondAgg records) lst hok e he
      subst he2
      exact ⟨hc, s, hm, hc, rfl, rfl, rfl⟩
    · intro g s hm hc
      exact bondSummaryList_mem_ok (bondAgg records) lst g s hok hm hc
  · exact bondSummaryList_error_iff (bondAgg records)

unseal Rat.mul Rat.inv Rat.add Rat.sub in
/-- Claim C1 witness: on the spec's two-record scenario the call
succeeds with list `[(Bill, 300.0, 5.25, 2)]` and the Bill group
(`mkBondGroup` applied to total 300, yield sum 10.5, count 2) is in
it. -/
theorem claim_C1_witness :
    mkBondGroup "Bill" ⟨300, 21 / 2, 2⟩ ∈ [(⟨"Bill", 300, 21 / 4, 2⟩ : BondGroup)] :=
  ((claim_C1 demoBondRecords).1 [⟨"Bill", 300, 21 / 4, 2⟩] (by decide)).2 "Bill"
    ⟨300, 21 / 2, 2⟩ (by decide) (by decide)

unseal Rat.mul Rat.inv Rat.add Rat.sub in
/-- Claim C1 counterexample: a record with a present-but-null
`security_type` and valid numerics yields a positive-count group, yet
no output record for it is ever produced — the call aborts with the
pydantic validation error of the `BondGroup` construction on a null
`security_type` — falsifying "for every group whose count is greater
than 0, the output record is (group, round(total,2),
round(yield_sum/count,4), count)". -/
theorem claim_C1_counterexample :
    bondAgg [[("security_type", none), ("offering_amount", some "1"), ("high_yield", some "2")]]
      = [((none : Option String), ⟨1, 2, 1⟩)] ∧
    bondSummary [[("security_type", none), ("offering_amount", some "1"),
        ("high_yield", some "2")]]
      = .error (.validationError "security_type: Input should be a valid string") := by
  exact ⟨by decide, by decide⟩

unseal Rat.mul Rat.inv Rat.add Rat.sub in
/-- Claim C2 (code bug): a record whose `offering_amount` parses but
whose `high_yield` is unparsable is NOT excluded from the running sum:
the `try` block has already added the amount to `total_amt` when
`float(high_yield)` raises, so the lone bad record leaves a
`(Bill, total 100, yield 0, count 0)` group behind, and together with
one valid record `(Bill, 200, 5.5)` the emitted total is 300 — the bad
record's 100 included — while the count stays 1.  The spec's skip policy
(and the code's own `Skip malformed rows` comment) require the bad
record to contribute to neither sum, i.e. an emitted total of 200. -/
theorem claim_C2 :
    bondAgg [[("security_type", some "Bill"), ("offering_amount", some "100"),
        ("high_yield", some "N/A")]] = [(some "Bill", ⟨100, 0, 0⟩)] ∧
    bondSummary [[("security_type", some "Bill"), ("offering_amount", some "100"),
        ("high_yield", some "N/A")],
      [("security_type", some "Bill"), ("offering_amount", some "200"),
        ("high_yield", some "5.5")]] = .ok [⟨"Bill", 300, 11 / 2, 1⟩] := by
  exact ⟨by decide, by decide⟩

/-- Claim C3 (amended): the pagination loop of every paginated strategy
(the driver is generic in the fold and state) returns a result within
`N + 1 - page` iterations whenever some page `N` ahead of the cursor
satisfies a stop condition — its fetch fails, it is empty, or its
reported total-pages (0 when the metadata is missing) does not exceed
`N`.  Termination is NOT unconditional: see the counterexample. -/
theorem claim_C3 {σ : Type} (fetch : ℕ → Except UpstreamError Page)
    (foldPage : σ → List RawRecord → σ) (st : σ) (page N : ℕ)
    (hpN : page ≤ N) (hstop : stopCond fetch N) :
    ∃ r, paginate fetch foldPage (N + 1 - page) page st = some r := by
  have h1 : N + 1 - page = (N - page) + 1 := by omega
  have h2 : N = page + (N - page) := by omega
  rw [h1]
  exact paginate_terminates fetch foldPage (N - page) page st (h2 ▸ hstop)

/-- Claim C3 witness: a provider whose first page is empty makes the
loop stop at once. -/
theorem claim_C3_witness :
    ∃ r, paginate (fun _ => Except.ok (⟨[], none⟩ : Page)) bondFoldPage (1 + 1 - 1) 1
      ([] : AggState) = some r :=
  claim_C3 (fun _ => Except.ok (⟨[], none⟩ : Page)) bondFoldPage [] 1 1 (le_refl 1)
    (Or.inl rfl)

/-- Claim C3 counterexample: against a provider whose every page is
nonempty and reports `total-pages` as the current page plus one, the
bond-summary loop exhausts every fuel bound without exiting — there IS a
sequence of provider responses on which the loop runs forever. -/
theorem claim_C3_counterexample : bondLoopNeverStops advFetch :=
  advFetch_neverStops

/-- Claim C4 (amended): the TGA-liquidity, debt-cost and debt-history
strategies parse each numeric field after stripping commas, but the
bond-issuance-summary and monthly-trend strategies pass the raw string
to `float` directly, so there a comma-grouped numeral fails the parse
and the record is dropped. -/
theorem claim_C4 (d s : String) (q : ℚ) (hd : d ≠ "") (hs : s ≠ "")
    (hq : pyFloat (stripCommas s) = some q) :
    tgaFoldRecord [] [("record_date", some d), ("close_today_bal", some s)]
      = [⟨d, pyRound (q / 1000000000) 2⟩] ∧
    rateFoldRecord [] [("record_date", some d), ("avg_interest_rate_amt", some s)]
      = [⟨d, pyRound q 4⟩] ∧
    debtFoldRecord [] [("record_date", some d), ("tot_pub_debt_out_amt", some s)] = [(d, q)] ∧
    (pyFloat s = none →
      monthlyFoldRecord [] [("auction_date", some d), ("offering_amount", some s)] = [] ∧
      bondSummary [[("security_type", some "Bill"), ("offering_amount", some s),
        ("high_yield", some "5.0")]] = .ok []) := by
  refine ⟨?_, ?_, ?_, fun hn => ⟨?_, ?_⟩⟩
  · simp [tgaFoldRecord, rget, rlookup, hd, hs, hq]
  · simp [rateFoldRecord, rget, rlookup, hd, hs, hq]
  · simp [debtFoldRecord, rget, rlookup, hd, hs, hq]
  · simp [monthlyFoldRecord, rget, rlookup, hd, hs, ‹pyFloat s = none›]
  · simp [bondSummary, bondAgg, bondFoldRecord, bondSummaryList, buildBondGroup,
      bondGroupKey, rgetD, rget, rlookup, hs, ‹pyFloat s = none›, updateGroup, BondStats.zero]

unseal Rat.mul Rat.inv Rat.add Rat.sub in
/-- Claim C4 witness: the string `1,000` (which strips to 1000). -/
theorem claim_C4_witness :
    tgaFoldRecord [] [("record_date", some "2024-01-02"), ("close_today_bal", some "1,000")]
      = [⟨"2024-01-02", pyRound ((1000 : ℚ) / 1000000000) 2⟩] ∧
    rateFoldRecord [] [("record_date", some "2024-01-02"), ("avg_interest_rate_amt", some "1,000")]
      = [⟨"2024-01-02", pyRound (1000 : ℚ) 4⟩] ∧
    debtFoldRecord [] [("record_date", some "2024-01-02"), ("tot_pub_debt_out_amt", some "1,000")]
      = [("2024-01-02", (1000 : ℚ))] ∧
    (pyFloat "1,000" = none →
      monthlyFoldRecord [] [("auction_date", some "2024-01-02"),
        ("offering_amount", some "1,000")] = [] ∧
      bondSummary [[("security_type", some "Bill"), ("offering_amount", some "1,000"),
        ("high_yield", some "5.0")]] = .ok []) :=
  claim_C4 "2024-01-02" "1,000" 1000 (by decide) (by decide) (by decide)

unseal Rat.mul Rat.inv Rat.add Rat.sub in
/-- Claim C4 counterexample: comma stripping does NOT happen in every
numeric-parsing strategy — `float("1,000")` fails, and the bond summary
and monthly trend silently drop a record carrying `1,000`, while the
TGA strategy (which does strip) accepts the same string. -/
theorem claim_C4_counterexample :
    pyFloat "1,000" = none ∧ pyFloat (stripCommas "1,000") = some 1000 ∧
    bondSummary [[("security_type", some "Bill"), ("offering_amount", some "1,000"),
      ("high_yield", some "5.0")]] = .ok [] ∧
    issuanceTrendPoints [[("auction_date", some "2024-01-05"),
      ("offering_amount", some "1,000")]] = [] ∧
    tgaLiquidityPoints [[("record_date", some "2024-01-02"),
      ("close_today_bal", some "1,000")]] = [⟨"2024-01-02", 0⟩] := by
  refine ⟨by decide, by decide, by decide, by decide, by decide⟩

/-- Claim C5: for any stream of records, in any arrival order, the
output of each ordered-series strategy — monthly issuance trend, TGA
liquidity, debt-cost trend, and debt history — is non-decreasing by its
date string. -/
theorem claim_C5 (records : List RawRecord) :
    List.Sorted (fun a b : TrendData => a.date ≤ b.date) (issuanceTrendPoints records) ∧
    List.Sorted (fun a b : LiquidityPoint => a.date ≤ b.date) (tgaLiquidityPoints records) ∧
    List.Sorted (fun a b : InterestRatePoint => a.date ≤ b.date) (debtCostPoints records) ∧
    List.Sorted (fun a b : DebtPoint => a.date ≤ b.date) (debtHistoryPoints records) := by
  refine ⟨sortByKey_sorted _ _, sortByKey_sorted _ _, sortByKey_sorted _ _, ?_⟩
  have hs : List.Sorted (fun a b : String × ℚ => a.1 ≤ b.1) (debtSortedRecords records) :=
    sortByKey_sorted _ _
  have hmap : List.Pairwise (fun a b : String => a ≤ b)
      ((debtSortedRecords records).map Prod.fst) := List.pairwise_map.mpr hs
  rw [← deltaScan_map_date] at hmap
  exact List.pairwise_map.mp hmap

/-- Claim C6: the debt-history output has one point per sorted record;
the chronologically first point's `daily_change` is exactly 0; and every
later point `i + 1` carries `round(value_{i+1} - value_i, 2)` computed
from the unrounded values of the sorted sequence — within `1/200` of the
exact difference. -/
theorem claim_C6 (records : List RawRecord) :
    (debtHistoryPoints records).length = (debtSortedRecords records).length ∧
    (∀ p, (debtHistoryPoints records).head? = some p → p.daily_change = 0) ∧
    ∀ (i : ℕ) (a b : String × ℚ) (p : DebtPoint),
      (debtSortedRecords records)[i]? = some a →
      (debtSortedRecords records)[i + 1]? = some b →
      (debtHistoryPoints records)[i + 1]? = some p →
      p.daily_change = pyRound (b.2 - a.2) 2 ∧ |p.daily_change - (b.2 - a.2)| ≤ 1 / 200 := by
  refine ⟨deltaScan_length _, fun p hp => deltaScan_head _ p hp, ?_⟩
  intro i a b p ha hb hp
  have h := deltaScan_get_succ _ i a b ha hb
  have hpe : p = ⟨b.1, pyRound b.2 2, pyRound (b.2 - a.2) 2⟩ := by
    unfold debtHistoryPoints at hp
    rw [hp] at h
    exact Option.some.inj h
  subst hpe
  refine ⟨rfl, ?_⟩
  have hr := pyRound_abs (b.2 - a.2) 2
  have h200 : (1 : ℚ) / (2 * 10 ^ 2) = 1 / 200 := by norm_num
  rw [h200] at hr
  exact hr

unseal Rat.mul Rat.inv Rat.add Rat.sub in
/-- Claim C6 witness: on three out-of-order snapshots with chronological
values 1000, 1050, 1040, the second point is `(2024-01-03, 1050, 50)`
and its change is the rounded difference `1050 - 1000`. -/
theorem claim_C6_witness :
    (debtHistoryPoints demoDebtRecords)[1]? = some ⟨"2024-01-03", 1050, 50⟩ ∧
    ((⟨"2024-01-03", 1050, 50⟩ : DebtPoint).daily_change = pyRound ((1050 : ℚ) - 1000) 2 ∧
      |(⟨"2024-01-03", 1050, 50⟩ : DebtPoint).daily_change - ((1050 : ℚ) - 1000)| ≤ 1 / 200) :=
  ⟨by decide, (claim_C6 demoDebtRecords).2.2 0 ("2024-01-02", 1000) ("2024-01-03", 1050)
    ⟨"2024-01-03", 1050, 50⟩ (by decide) (by decide) (by decide)⟩

/-- Claim C7: a record with no `security_type` key resolves its group
key to `Unknown` — never to null and never to the empty string — and
folding such a record is total, touching no group other than
`Unknown`. -/
theorem claim_C7 (r : RawRecord) (hmiss : rlookup r "security_type" = none) :
    bondGroupKey r = some "Unknown" ∧ bondGroupKey r ≠ none ∧ bondGroupKey r ≠ some "" ∧
    ∀ (st : AggState) (g : Option String) (s : BondStats),
      (g, s) ∈ bondFoldRecord st r → (g, s) ∈ st ∨ g = some "Unknown" := by
  have hkey : bondGroupKey r = some "Unknown" := by
    unfold bondGroupKey rgetD
    rw [hmiss]
  refine ⟨hkey, by rw [hkey]; decide, by rw [hkey]; decide, ?_⟩
  intro st g s h
  rcases bondFoldRecord_mem h with h1 | h1
  · exact Or.inl h1
  · exact Or.inr (h1.trans hkey)

unseal Rat.mul Rat.inv Rat.add Rat.sub in
/-- Claim C7 witness: a valid record carrying only amount and yield is
aggregated under the `Unknown` group. -/
theorem claim_C7_witness :
    bondGroupKey [("offering_amount", some "10"), ("high_yield", some "2.0")] = some "Unknown" ∧
    ((some "Unknown", (⟨10, 2, 1⟩ : BondStats)) ∈ ([] : AggState) ∨
      (some "Unknown" : Option String) = some "Unknown") :=
  ⟨(claim_C7 [("offering_amount", some "10"), ("high_yield", some "2.0")] (by decide)).1,
    (claim_C7 [("offering_amount", some "10"), ("high_yield", some "2.0")] (by decide)).2.2.2
      [] (some "Unknown") ⟨10, 2, 1⟩ (by decide)⟩

/-- Claim C8 (amended): the single-record strategies signal an absent
required record with a dedicated `No ... data found` error, distinct
from a propagated upstream fetch failure; the paginated bond aggregation
does NOT — zero records across all pages yields an ordinary success
carrying an empty group list. -/
theorem claim_C8 :
    (∀ e, get_total_debt (.error e) = .error (.upstream e)) ∧
    get_total_debt (.ok []) = .error (.noData "No debt data found") ∧
    get_daily_yield_curve (.ok []) = .error (.noData "No yield curve data found") ∧
    get_10_2_spread (.ok []) = .error (.noData "No yield curve data found") ∧
    (∀ m e, TreasuryError.noData m ≠ TreasuryError.upstream e) ∧
    (∀ (fetch : ℕ → Except UpstreamError Page) (tp : Option ℕ) (fuel months : ℕ),
      fetch 1 = .ok ⟨[], tp⟩ →
      get_bond_issuance_summary fetch (fuel + 1) months
        = some (.ok ⟨mkPeriod months, "USD", []⟩)) := by
  refine ⟨fun e => rfl, rfl, rfl, rfl, fun m e h => TreasuryError.noConfusion h, ?_⟩
  intro fetch tp fuel months hfe
  unfold get_bond_issuance_summary paginate
  rw [hfe]
  simp [bondSummaryList]

/-- Claim C8 witness: a provider with an empty first page. -/
theorem claim_C8_witness :
    get_bond_issuance_summary (fun _ => Except.ok (⟨[], none⟩ : Page)) 6 6
      = some (.ok ⟨mkPeriod 6, "USD", []⟩) :=
  claim_C8.2.2.2.2.2 (fun _ => Except.ok (⟨[], none⟩ : Page)) none 5 6 rfl

/-- Claim C8 counterexample: with zero records across all pages the
paginated aggregation returns a plain success with an empty list — it is
not signaled as a `no data found` terminal condition (the result is not
an error of any kind). -/
theorem claim_C8_counterexample :
    get_bond_issuance_summary (fun _ => Except.ok (⟨[], none⟩ : Page)) 1 6
      = some (.ok ⟨"Last 6 Months", "USD", []⟩) := by
  decide

/-- Claim C9 (amended): on the single most-recent record, the spread
computation succeeds exactly when both the 10-year and the 2-year field
are present and parse AND the `record_date` slot is a string (it is the
default `Unknown` when the key is absent, but `None` when the key is
present with a null value, which pydantic rejects at the
`SpreadAnalysis` construction); on success it returns
`round(rate10 - rate2, 4)` with `is_inverted` true exactly when the
unrounded difference is negative, and it fails with an error exactly
otherwise. -/
theorem claim_C9 (latest : RawRecord) :
    ((∃ sp, spreadFromRecord latest = .ok sp) ↔
      (∃ q, (rget latest "BC_10YEAR").bind pyFloat = some q) ∧
      (∃ q, (rget latest "BC_2YEAR").bind pyFloat = some q) ∧
      rgetD latest "record_date" "Unknown" ≠ none) ∧
    ((∃ err, spreadFromRecord latest = .error err) ↔
      ¬ ((∃ q, (rget latest "BC_10YEAR").bind pyFloat = some q) ∧
         (∃ q, (rget latest "BC_2YEAR").bind pyFloat = some q) ∧
         rgetD latest "record_date" "Unknown" ≠ none)) ∧
    ∀ q10 q2 d, (rget latest "BC_10YEAR").bind pyFloat = some q10 →
      (rget latest "BC_2YEAR").bind pyFloat = some q2 →
      rgetD latest "record_date" "Unknown" = some d →
      spreadFromRecord latest = .ok ⟨pyRound (q10 - q2) 4, decide (q10 - q2 < 0), d⟩ ∧
      ∀ sp, spreadFromRecord latest = .ok sp → (sp.is_inverted = true ↔ q10 - q2 < 0) := by
  unfold spreadFromRecord
  rcases h10 : rget latest "BC_10YEAR" with _ | s10
  · refine ⟨?_, ?_, ?_⟩
    · simp
    · simp
    · intro q10 q2 d hq10
      simp at hq10
  · rcases h2 : rget latest "BC_2YEAR" with _ | s2
    · refine ⟨?_, ?_, ?_⟩
      · simp
      · simp
      · intro q10 q2 d hq10 hq2
        simp at hq2
    · rcases hp10 : pyFloat s10 with _ | r10
      · refine ⟨?_, ?_, ?_⟩
        · simp [hp10]
        · simp [hp10]
        · intro q10 q2 d hq10
          simp [hp10] at hq10
      · rcases hp2 : pyFloat s2 with _ | r2
        · refine ⟨?_, ?_, ?_⟩
          · simp [hp10, hp2]
          · simp [hp10, hp2]
          · intro q10 q2 d hq10 hq2
            simp [hp2] at hq2
        · rcases hd : rgetD latest "record_date" "Unknown" with _ | d0
          · refine ⟨?_, ?_, ?_⟩
            · simp [hp10, hp2, hd]
            · simp [hp10, hp2, hd]
            · intro q10 q2 d hq10 hq2 hqd
              exact absurd hqd (by simp)
          · refine ⟨?_, ?_, ?_⟩
            · simp [hp10, hp2, hd]
            · simp [hp10, hp2, hd]
            · intro q10 q2 d hq10 hq2 hqd
              simp [hp10] at hq10
              simp [hp2] at hq2
              have hdd := Option.some.inj hqd
              subst hq10
              subst hq2
              subst hdd
              constructor
              · simp only [hp10, hp2]
              · intro sp hsp
                simp only [hp10, hp2] at hsp
                have hspe := Except.ok.inj hsp
                rw [← hspe]
                simp

unseal Rat.mul Rat.inv Rat.add Rat.sub in
/-- Claim C9 witness: rates 4.5 and 4.9 with a string date give spread
`round(-0.4, 4)` with the inversion flag set. -/
theorem claim_C9_witness :
    spreadFromRecord [("record_date", some "2024-01-02"), ("BC_10YEAR", some "4.5"),
      ("BC_2YEAR", some "4.9")]
      = .ok ⟨pyRound ((9 / 2 : ℚ) - 49 / 10) 4, decide ((9 / 2 : ℚ) - 49 / 10 < 0),
          "2024-01-02"⟩ :=
  ((claim_C9 _).2.2 (9 / 2) (49 / 10) "2024-01-02" (by decide) (by decide) (by decide)).1

unseal Rat.mul Rat.inv Rat.add Rat.sub in
/-- Claim C9 counterexample: with both rates present and parsing but a
present-but-null `record_date`, the spread computation still fails —
the pydantic validation error of constructing `SpreadAnalysis` with a
null date — falsifying "fails with an error exactly when either of the
two rates is missing or unparsable". -/
theorem claim_C9_counterexample :
    (rget [("record_date", none), ("BC_10YEAR", some "4.5"), ("BC_2YEAR", some "4.9")]
        "BC_10YEAR").bind pyFloat = some (9 / 2) ∧
    (rget [("record_date", none), ("BC_10YEAR", some "4.5"), ("BC_2YEAR", some "4.9")]
        "BC_2YEAR").bind pyFloat = some (49 / 10) ∧
    spreadFromRecord [("record_date", none), ("BC_10YEAR", some "4.5"),
        ("BC_2YEAR", some "4.9")]
      = .error (.validationError "date: Input should be a valid string") := by
  refine ⟨by decide, by decide, by decide⟩

/-- Claim C10: the yield-curve output's labels form a subsequence of the
fixed vocabulary (1 Month, 3 Month, 1 Year, 2 Year, 5 Year, 10 Year,
20 Year, 30 Year) — each label at most once, in table order — and a
label appears exactly when its field is present (non-null) and parses as
a number. -/
theorem claim_C10 (latest : RawRecord) :
    ((yieldCurveFromRecord latest).map YieldCurvePoint.maturity).Sublist
      ["1 Month", "3 Month", "1 Year", "2 Year", "5 Year", "10 Year", "20 Year", "30 Year"] ∧
    ((yieldCurveFromRecord latest).map YieldCurvePoint.maturity).Nodup ∧
    ∀ fl ∈ maturityMapping,
      (fl.2 ∈ (yieldCurveFromRecord latest).map YieldCurvePoint.maturity ↔
        ∃ q, (rget latest fl.1).bind pyFloat = some q) := by
  have hsub := curveSublist (fun f => (rget latest f).bind pyFloat) maturityMapping
  have hvocab : maturityMapping.map Prod.snd
      = ["1 Month", "3 Month", "1 Year", "2 Year", "5 Year", "10 Year", "20 Year", "30 Year"] :=
    rfl
  rw [hvocab] at hsub
  refine ⟨hsub, List.Nodup.sublist hsub (by decide), ?_⟩
  intro fl hfl
  exact curveMem (fun f => (rget latest f).bind pyFloat) maturityMapping (by decide) fl hfl

unseal Rat.mul Rat.inv Rat.add Rat.sub in
/-- Claim C10 witness: a record carrying only `BC_10YEAR` emits the
`10 Year` label. -/
theorem claim_C10_witness :
    (("10 Year" : String) ∈ (yieldCurveFromRecord [("BC_10YEAR", some "4.5")]).map
        YieldCurvePoint.maturity ↔
      ∃ q, (rget [("BC_10YEAR", some "4.5")] "BC_10YEAR").bind pyFloat = some q) :=
  (claim_C10 _).2.2 ("BC_10YEAR", "10 Year") (by decide)

end Treasury
